import Mathlib

/-!
Verification development for the token-generation orchestration layer of
the youtube-trusted-session-generator repository.

The embedding translates the relevant parts of `src/index.ts` and
`src/libs/task.ts`:

* `TokenResult`, `CacheState`, `getLatestTokens`, `settleUpdate` model the
  module-level cache state and the synchronous part of the async function
  `getLatestTokens` (index.ts lines 184-220), plus the effect of the
  in-flight promise settling (the `finally` clause clearing `updatePromise`,
  and `generate` storing tokens on success).
* `RaceState`, `RaceEvent`, `raceStep` model the event handlers installed
  by `generateMultiThread` (index.ts lines 85-164): per-worker `message`,
  `error` and `exit` handlers, and the overall timeout callback, acting on
  the shared `hasResolved` / `completedWorkers` variables.  A stop message
  is only ever sent by broadcasting `{ action: "stop" }` to every worker,
  which the model records by appending `List.range workerCount` to a log.
* `AttemptOutcome`, `startLoop` model the retry loop of `createTask`'s
  `start` (task.ts lines 33-109): each list element is the outcome of one
  attempt's inner promise (resolved with a token, or rejected by the
  30-second timeout / window-close error); a run over a list of length
  `maxAttempts = 5` models one `start()` call.
* `updateLoopFrom` models the `while` loop of `startAutoUpdate`
  (index.ts lines 359-387), fuel-bounded, with the delay chosen per
  iteration exactly as the try/catch does.
* `TaskState`, `taskStep` model the interaction between `createTask`'s
  `stop` (which sets `isIntentionalClose` and calls `destroy`) and the
  inner promise of a running attempt (task.ts lines 25-32 and 80-88).
-/

/-- Credentials pair produced by a generation cycle (`TokenResult` in
src/index.ts). -/
structure TokenResult where
  visitorData : String
  poToken : String
deriving DecidableEq

/-- Module-level mutable state of src/index.ts used by the token cache:
`latestTokens`, `lastUpdateTime` and the single-flight `updatePromise`.
An in-flight promise is identified by a numeric id; `nextPromiseId` is the
id a newly started generation would receive. -/
structure CacheState where
  latestTokens : Option TokenResult
  lastUpdateTime : Nat
  updatePromise : Option Nat
  nextPromiseId : Nat
deriving DecidableEq

/-- Initial module state: no tokens, `lastUpdateTime = 0`, no pending
update promise. -/
def cacheInit : CacheState := ⟨none, 0, none, 0⟩

/-- What one `getLatestTokens` call does synchronously before its first
suspension point: attach to the existing in-flight promise, start a new
generation (installing a fresh promise), or return the cached tokens. -/
inductive GetResult where
  | awaitExisting (pid : Nat)
  | startNew (pid : Nat)
  | cached (tokens : TokenResult)
deriving DecidableEq

/-- The synchronous prefix of `getLatestTokens` (src/index.ts lines
184-220).  There is no `await` between the function entry and either the
`return updatePromise`, the assignment `updatePromise = generate()`, or the
`return latestTokens`, so this prefix is a single atomic step on the
module state. -/
def getLatestTokens (REFRESH_INTERVAL : Nat) (s : CacheState) (forceUpdate : Bool)
    (now : Nat) : GetResult × CacheState :=
  let isExpired := decide (REFRESH_INTERVAL < now - s.lastUpdateTime)
  match s.updatePromise with
  | some p => (GetResult.awaitExisting p, s)
  | none =>
    match s.latestTokens with
    | none =>
      (GetResult.startNew s.nextPromiseId,
        { s with updatePromise := some s.nextPromiseId,
                 nextPromiseId := s.nextPromiseId + 1 })
    | some tokens =>
      if isExpired || forceUpdate then
        (GetResult.startNew s.nextPromiseId,
          { s with updatePromise := some s.nextPromiseId,
                   nextPromiseId := s.nextPromiseId + 1 })
      else
        (GetResult.cached tokens, s)

/-- Effect on the module state of the in-flight generation promise
settling.  On success (`some (tokens, now)`) `generate` has stored
`latestTokens` and `lastUpdateTime` (index.ts lines 57-58 or 167-168); in
both the success and failure case the `finally` clause of `getLatestTokens`
(line 215) clears `updatePromise`. -/
def settleUpdate (s : CacheState) (outcome : Option (TokenResult × Nat)) : CacheState :=
  match outcome with
  | some (tokens, now) =>
    { s with latestTokens := some tokens, lastUpdateTime := now, updatePromise := none }
  | none => { s with updatePromise := none }

/-- C1.  Single-flight: while an in-flight refresh promise exists, every
`getLatestTokens` call — for any `forceUpdate` flag and any clock value —
returns that same promise and leaves the state unchanged (no second
generation is started); when the promise settles, successfully or not, it
is cleared, and a later call (here a forced one) starts a new generation. -/
theorem getLatestTokens_single_flight (REFRESH_INTERVAL : Nat) (s : CacheState) (p : Nat)
    (h : s.updatePromise = some p) (forceUpdate : Bool) (now now2 : Nat)
    (outcome : Option (TokenResult × Nat)) :
    getLatestTokens REFRESH_INTERVAL s forceUpdate now = (GetResult.awaitExisting p, s) ∧
    (settleUpdate s outcome).updatePromise = none ∧
    (getLatestTokens REFRESH_INTERVAL (settleUpdate s outcome) true now2).1 =
      GetResult.startNew (settleUpdate s outcome).nextPromiseId := by
  refine ⟨?_, ?_, ?_⟩
  · simp [getLatestTokens, h]
  · cases outcome with
    | none => simp [settleUpdate]
    | some o => obtain ⟨tok, t⟩ := o; simp [settleUpdate]
  · cases outcome with
    | none =>
      simp only [settleUpdate, getLatestTokens]
      cases s.latestTokens <;> simp
    | some o =>
      obtain ⟨tok, t⟩ := o
      simp [settleUpdate, getLatestTokens]

/-- Witness for C1 at a concrete state with an in-flight promise id 3. -/
theorem getLatestTokens_single_flight_witness :
    getLatestTokens 30000 ⟨some ⟨"v", "p"⟩, 10, some 3, 4⟩ true 20 =
      (GetResult.awaitExisting 3, ⟨some ⟨"v", "p"⟩, 10, some 3, 4⟩) ∧
    (settleUpdate ⟨some ⟨"v", "p"⟩, 10, some 3, 4⟩ none).updatePromise = none ∧
    (getLatestTokens 30000 (settleUpdate ⟨some ⟨"v", "p"⟩, 10, some 3, 4⟩ none) true 25).1 =
      GetResult.startNew (settleUpdate ⟨some ⟨"v", "p"⟩, 10, some 3, 4⟩ none).nextPromiseId :=
  getLatestTokens_single_flight 30000 ⟨some ⟨"v", "p"⟩, 10, some 3, 4⟩ 3 rfl true 20 25 none

/-- A concrete state with fresh cached tokens AND an in-flight update
promise (id 7): reachable by a forced update (`/update`) racing a `/token`
request while the cache is still fresh. -/
def freshBusyState : CacheState := ⟨some ⟨"v", "p"⟩, 100, some 7, 8⟩

/-- C8, counterexample.  The cached credentials exist and are fresh
(age 0 ≤ 30000) and `forceUpdate` is false, yet the call does not return
the cached credentials synchronously: the in-flight-promise check comes
first, so it returns the pending promise (suspending on it). -/
theorem getLatestTokens_freshness_counterexample :
    freshBusyState.latestTokens = some ⟨"v", "p"⟩ ∧
    100 - freshBusyState.lastUpdateTime ≤ 30000 ∧
    (getLatestTokens 30000 freshBusyState false 100).1 = GetResult.awaitExisting 7 ∧
    (getLatestTokens 30000 freshBusyState false 100).1 ≠ GetResult.cached ⟨"v", "p"⟩ := by
  refine ⟨rfl, by norm_num [freshBusyState], rfl, ?_⟩
  simp [getLatestTokens, freshBusyState]

/-- C8, amended.  If additionally no refresh promise is in flight, then a
non-forced call on a fresh cache returns the cached credentials
synchronously and starts no generation (state unchanged). -/
theorem getLatestTokens_freshness_fast_path (REFRESH_INTERVAL : Nat) (s : CacheState)
    (t : TokenResult) (now : Nat) (hp : s.updatePromise = none)
    (ht : s.latestTokens = some t) (hfresh : now - s.lastUpdateTime ≤ REFRESH_INTERVAL) :
    getLatestTokens REFRESH_INTERVAL s false now = (GetResult.cached t, s) := by
  simp [getLatestTokens, hp, ht, Nat.not_lt.mpr hfresh]

/-- Witness for the amended C8 at a concrete fresh, idle state. -/
theorem getLatestTokens_freshness_fast_path_witness :
    getLatestTokens 30000 ⟨some ⟨"v", "p"⟩, 100, none, 8⟩ false 2000 =
      (GetResult.cached ⟨"v", "p"⟩, ⟨some ⟨"v", "p"⟩, 100, none, 8⟩) :=
  getLatestTokens_freshness_fast_path 30000 ⟨some ⟨"v", "p"⟩, 100, none, 8⟩ ⟨"v", "p"⟩ 2000
    rfl rfl (by norm_num)

/-- Events delivered to the handlers installed by `generateMultiThread`
(src/index.ts lines 106-158): a worker's success or failure message, a
worker `error` event, a worker `exit` event, or the overall 2-minute
timeout firing. -/
inductive RaceEvent where
  | msgSuccess (workerIdx : Nat) (data : TokenResult)
  | msgFailure (workerIdx : Nat) (reason : String)
  | workerError (workerIdx : Nat)
  | workerExit (workerIdx : Nat) (code : Nat)
  | timeoutFire
deriving DecidableEq

/-- Settlement of the race promise. -/
inductive RaceOutcome where
  | resolvedWith (data : TokenResult)
  | rejectedWith (err : String)
deriving DecidableEq

/-- Shared state of the `generateMultiThread` race: the `hasResolved`
flag, the incremental `completedWorkers` counter, the promise's settled
value, and a log of the worker indices that have been posted a
`{ action: "stop" }` message (in order).  Stops are only ever sent by the
two `for (const worker of workers)` broadcasts. -/
structure RaceState where
  hasResolved : Bool
  completedWorkers : Nat
  settled : Option RaceOutcome
  stopLog : List Nat
deriving DecidableEq

/-- State before any event is delivered. -/
def raceInit : RaceState := ⟨false, 0, none, []⟩

/-- Promise semantics: `res` / `rej` settle the promise only if it is not
already settled. -/
def settleRace (s : RaceState) (o : RaceOutcome) : RaceState :=
  match s.settled with
  | some _ => s
  | none => { s with settled := some o }

/-- `for (const worker of workers) worker.postMessage({ action: "stop" })`:
one stop message to each of the `workerCount` workers. -/
def broadcastStop (workerCount : Nat) (s : RaceState) : RaceState :=
  { s with stopLog := s.stopLog ++ List.range workerCount }

/-- One event handler execution of `generateMultiThread`
(src/index.ts lines 94-158), acting atomically on the shared state:

* success message: if `!hasResolved`, set it, clear the timeout, broadcast
  stop to every worker, and resolve with the worker's data; otherwise
  ignore.
* failure message / `error` event / `exit` event: increment
  `completedWorkers`; if the counter has reached `workerCount` and
  `!hasResolved`, set it, clear the timeout, and reject with the
  corresponding aggregate error — with no stop broadcast.
* timeout: if `!hasResolved`, set it, broadcast stop, and reject with the
  timeout error. -/
def raceStep (workerCount : Nat) (s : RaceState) : RaceEvent → RaceState
  | RaceEvent.msgSuccess _ data =>
    if s.hasResolved then s
    else
      settleRace (broadcastStop workerCount { s with hasResolved := true })
        (RaceOutcome.resolvedWith data)
  | RaceEvent.msgFailure _ _ =>
    let s1 : RaceState := { s with completedWorkers := s.completedWorkers + 1 }
    if workerCount ≤ s1.completedWorkers ∧ ¬s1.hasResolved then
      settleRace { s1 with hasResolved := true }
        (RaceOutcome.rejectedWith "All workers failed to generate tokens")
    else s1
  | RaceEvent.workerError _ =>
    let s1 : RaceState := { s with completedWorkers := s.completedWorkers + 1 }
    if workerCount ≤ s1.completedWorkers ∧ ¬s1.hasResolved then
      settleRace { s1 with hasResolved := true }
        (RaceOutcome.rejectedWith "All workers failed with errors")
    else s1
  | RaceEvent.workerExit _ _ =>
    let s1 : RaceState := { s with completedWorkers := s.completedWorkers + 1 }
    if workerCount ≤ s1.completedWorkers ∧ ¬s1.hasResolved then
      settleRace { s1 with hasResolved := true }
        (RaceOutcome.rejectedWith "All workers exited without generating tokens")
    else s1
  | RaceEvent.timeoutFire =>
    if ¬s.hasResolved then
      settleRace (broadcastStop workerCount { s with hasResolved := true })
        (RaceOutcome.rejectedWith "Token generation timeout - all workers failed")
    else s

/-- Deliver a sequence of events starting from the initial race state. -/
def raceRun (workerCount : Nat) (evs : List RaceEvent) : RaceState :=
  evs.foldl (raceStep workerCount) raceInit

/-- The worker a completion-style event (failure message, error, exit)
belongs to, if any. -/
def eventWorker : RaceEvent → Option Nat
  | RaceEvent.msgSuccess i _ => some i
  | RaceEvent.msgFailure i _ => some i
  | RaceEvent.workerError i => some i
  | RaceEvent.workerExit i _ => some i
  | RaceEvent.timeoutFire => none

/-- Once `hasResolved` is set, every further event preserves the settled
value, the stop log, and the flag itself. -/
theorem raceStep_of_hasResolved (workerCount : Nat) (s : RaceState) (e : RaceEvent)
    (h : s.hasResolved = true) :
    (raceStep workerCount s e).settled = s.settled ∧
    (raceStep workerCount s e).stopLog = s.stopLog ∧
    (raceStep workerCount s e).hasResolved = true := by
  cases e <;> simp [raceStep, h]

/-- `raceRun`-reachable invariant: before resolution no stop was sent and
the promise is unsettled; after resolution the settled value is present. -/
theorem raceRun_invariant (workerCount : Nat) (evs : List RaceEvent) :
    ((raceRun workerCount evs).hasResolved = false →
      (raceRun workerCount evs).stopLog = [] ∧ (raceRun workerCount evs).settled = none) ∧
    ((raceRun workerCount evs).hasResolved = true →
      (raceRun workerCount evs).settled.isSome = true) := by
  rw [raceRun]
  induction evs using List.reverseRecOn with
  | nil => simp [raceInit]
  | append_singleton evs e ih =>
    rw [List.foldl_append, List.foldl_cons, List.foldl_nil]
    set s := evs.foldl (raceStep workerCount) raceInit with hs
    rcases hres : s.hasResolved with _ | _
    · obtain ⟨hlog, hset⟩ := ih.1 hres
      cases e <;>
        simp [raceStep, hres, hlog, hset, settleRace, broadcastStop] <;>
        split <;> simp_all [settleRace]
    · obtain ⟨h1, h2, h3⟩ := raceStep_of_hasResolved workerCount s e hres
      exact ⟨fun hc => absurd h3 (by simp [hc]), fun _ => by rw [h1]; exact ih.2 hres⟩

/-- Events after resolution change neither the settled value nor the stop
log. -/
theorem raceRun_frozen_after (workerCount : Nat) (s : RaceState) (evs : List RaceEvent)
    (h : s.hasResolved = true) :
    (evs.foldl (raceStep workerCount) s).settled = s.settled ∧
    (evs.foldl (raceStep workerCount) s).stopLog = s.stopLog := by
  induction evs generalizing s with
  | nil => exact ⟨rfl, rfl⟩
  | cons e evs ih =>
    obtain ⟨h1, h2, h3⟩ := raceStep_of_hasResolved workerCount s e h
    rw [List.foldl_cons]
    obtain ⟨ih1, ih2⟩ := ih (raceStep workerCount s e) h3
    exact ⟨by rw [ih1, h1], by rw [ih2, h2]⟩

/-- C4.  First-success-wins: if the race is not yet resolved after `evs`,
then delivering a success message settles the race with that worker's
data, one stop message has been sent to every spawned worker — the winner
included — exactly once each, and any events delivered afterwards (further
successes included) change neither the settled result nor the stop log. -/
theorem race_first_success_wins (workerCount : Nat) (evs : List RaceEvent) (i : Nat)
    (d : TokenResult) (evs2 : List RaceEvent)
    (h : (raceRun workerCount evs).hasResolved = false) :
    ((evs ++ RaceEvent.msgSuccess i d :: evs2).foldl (raceStep workerCount) raceInit).settled =
      some (RaceOutcome.resolvedWith d) ∧
    ∀ j, j < workerCount →
      ((evs ++ RaceEvent.msgSuccess i d :: evs2).foldl
        (raceStep workerCount) raceInit).stopLog.count j = 1 := by
  rw [List.foldl_append, List.foldl_cons]
  set s := evs.foldl (raceStep workerCount) raceInit with hs
  have hlog : s.stopLog = [] := ((raceRun_invariant workerCount evs).1 h).1
  have hset : s.settled = none := ((raceRun_invariant workerCount evs).1 h).2
  have hstep : raceStep workerCount s (RaceEvent.msgSuccess i d) =
      { hasResolved := true, completedWorkers := s.completedWorkers,
        settled := some (RaceOutcome.resolvedWith d), stopLog := List.range workerCount } := by
    simp [raceStep, show s.hasResolved = false from h, settleRace, broadcastStop, hlog, hset]
  rw [hstep]
  obtain ⟨h1, h2⟩ := raceRun_frozen_after workerCount
    { hasResolved := true, completedWorkers := s.completedWorkers,
      settled := some (RaceOutcome.resolvedWith d), stopLog := List.range workerCount }
    evs2 rfl
  refine ⟨by rw [h1], fun j hj => ?_⟩
  rw [h2]
  exact List.count_eq_one_of_mem (List.nodup_range workerCount) (List.mem_range.mpr hj)

/-- Witness for C4: two workers; worker 0 fails first, then worker 1
succeeds, then a stale success from worker 0 arrives after settlement. -/
theorem race_first_success_wins_witness :
    (raceRun 2 [RaceEvent.msgFailure 0 "x"]).hasResolved = false ∧
    (([RaceEvent.msgFailure 0 "x"] ++ RaceEvent.msgSuccess 1 ⟨"v", "t"⟩ ::
        [RaceEvent.msgSuccess 0 ⟨"v", "u"⟩]).foldl (raceStep 2) raceInit).settled =
      some (RaceOutcome.resolvedWith ⟨"v", "t"⟩) ∧
    (([RaceEvent.msgFailure 0 "x"] ++ RaceEvent.msgSuccess 1 ⟨"v", "t"⟩ ::
        [RaceEvent.msgSuccess 0 ⟨"v", "u"⟩]).foldl (raceStep 2) raceInit).stopLog.count 0 = 1 ∧
    (([RaceEvent.msgFailure 0 "x"] ++ RaceEvent.msgSuccess 1 ⟨"v", "t"⟩ ::
        [RaceEvent.msgSuccess 0 ⟨"v", "u"⟩]).foldl (raceStep 2) raceInit).stopLog.count 1 = 1 :=
  ⟨by decide,
   (race_first_success_wins 2 [RaceEvent.msgFailure 0 "x"] 1 ⟨"v", "t"⟩
     [RaceEvent.msgSuccess 0 ⟨"v", "u"⟩] (by decide)).1,
   (race_first_success_wins 2 [RaceEvent.msgFailure 0 "x"] 1 ⟨"v", "t"⟩
     [RaceEvent.msgSuccess 0 ⟨"v", "u"⟩] (by decide)).2 0 (by norm_num),
   (race_first_success_wins 2 [RaceEvent.msgFailure 0 "x"] 1 ⟨"v", "t"⟩
     [RaceEvent.msgSuccess 0 ⟨"v", "u"⟩] (by decide)).2 1 (by norm_num)⟩

/-- C3, counterexample.  One worker, which reports failure: the race
settles with the aggregated all-failed rejection, yet the stop log is
empty — no worker was ever sent a stop message, so the (still running)
worker survives settlement. -/
theorem race_all_failed_no_stop_counterexample :
    (raceRun 1 [RaceEvent.msgFailure 0 "boom"]).settled =
      some (RaceOutcome.rejectedWith "All workers failed to generate tokens") ∧
    (raceRun 1 [RaceEvent.msgFailure 0 "boom"]).stopLog = [] := by
  decide

/-- C3, amended.  At the settling step of the race: a settlement caused by
a success message or by the overall timeout sends one stop message to
every spawned worker, but a settlement caused by the failure-count path
(failure message, worker error, or worker exit) sends no stop message at
all — and no event after settlement ever adds one. -/
theorem race_stop_on_settlement (workerCount : Nat) (evs : List RaceEvent) (e : RaceEvent)
    (h : (raceRun workerCount evs).hasResolved = false)
    (hsettles : (raceStep workerCount (raceRun workerCount evs) e).hasResolved = true) :
    (((∃ i d, e = RaceEvent.msgSuccess i d) ∨ e = RaceEvent.timeoutFire) →
      (raceStep workerCount (raceRun workerCount evs) e).stopLog = List.range workerCount) ∧
    (((∃ i r, e = RaceEvent.msgFailure i r) ∨ (∃ i, e = RaceEvent.workerError i) ∨
        (∃ i c, e = RaceEvent.workerExit i c)) →
      (raceStep workerCount (raceRun workerCount evs) e).stopLog = []) ∧
    ∀ evs2 : List RaceEvent, (evs2.foldl (raceStep workerCount)
        (raceStep workerCount (raceRun workerCount evs) e)).stopLog =
      (raceStep workerCount (raceRun workerCount evs) e).stopLog := by
  have hlog := ((raceRun_invariant workerCount evs).1 h).1
  have hset := ((raceRun_invariant workerCount evs).1 h).2
  refine ⟨?_, ?_, fun evs2 => (raceRun_frozen_after workerCount _ evs2 hsettles).2⟩
  · rintro (⟨i, d, rfl⟩ | rfl) <;>
      simp [raceStep, show (raceRun workerCount evs).hasResolved = false from h,
        settleRace, broadcastStop, hlog, hset]
  · rintro (⟨i, r, rfl⟩ | ⟨i, rfl⟩ | ⟨i, c, rfl⟩) <;>
      · simp only [raceStep] at hsettles ⊢
        split at hsettles <;>
          simp_all [settleRace, show (raceRun workerCount evs).hasResolved = false from h]

/-- Witness for the amended C3: one worker failing settles the race with
no stop sent; separately the concrete hypothesis side conditions hold. -/
theorem race_stop_on_settlement_witness :
    (raceRun 1 []).hasResolved = false ∧
    ((((∃ i d, RaceEvent.msgFailure 0 "b" = RaceEvent.msgSuccess i d) ∨
        RaceEvent.msgFailure 0 "b" = RaceEvent.timeoutFire) →
      (raceStep 1 (raceRun 1 []) (RaceEvent.msgFailure 0 "b")).stopLog = List.range 1) ∧
    (((∃ i r, RaceEvent.msgFailure 0 "b" = RaceEvent.msgFailure i r) ∨
        (∃ i, RaceEvent.msgFailure 0 "b" = RaceEvent.workerError i) ∨
        (∃ i c, RaceEvent.msgFailure 0 "b" = RaceEvent.workerExit i c)) →
      (raceStep 1 (raceRun 1 []) (RaceEvent.msgFailure 0 "b")).stopLog = []) ∧
    ∀ evs2 : List RaceEvent, (evs2.foldl (raceStep 1)
        (raceStep 1 (raceRun 1 []) (RaceEvent.msgFailure 0 "b"))).stopLog =
      (raceStep 1 (raceRun 1 []) (RaceEvent.msgFailure 0 "b")).stopLog) :=
  ⟨by decide,
   race_stop_on_settlement 1 [] (RaceEvent.msgFailure 0 "b") (by decide) (by decide)⟩

/-- C5.  The failure counter counts events, not workers: with two workers,
worker 0 raising an uncaught error (an `error` event followed by the
worker's `exit` event) increments `completedWorkers` twice, reaching
`workerCount`, so the race rejects with the aggregated all-exited error
while worker 1 — which appears in no event of the trace — has neither
failed nor exited. -/
theorem race_double_count_bug :
    (raceRun 2 [RaceEvent.workerError 0, RaceEvent.workerExit 0 1]).settled =
      some (RaceOutcome.rejectedWith "All workers exited without generating tokens") ∧
    (raceRun 2 [RaceEvent.workerError 0, RaceEvent.workerExit 0 1]).completedWorkers = 2 ∧
    ([RaceEvent.workerError 0, RaceEvent.workerExit 0 1].all
      (fun e => eventWorker e == some 0)) = true := by
  decide

/-- Outcome of one attempt's inner promise in `createTask`'s `start`
(src/libs/task.ts lines 41-90): either `onPoToken` resolved it with a
token string, or it was rejected (30-second timeout, window-close error,
or a script error surfacing as a rejection). -/
inductive AttemptOutcome where
  | token (poToken : String)
  | thrown (err : String)
deriving DecidableEq

/-- The validity test of src/libs/task.ts line 92:
`if (poToken && poToken.length >= 160)` — a truthy (non-empty) string of
length at least 160. -/
def tokenAccepted (poToken : String) : Bool :=
  !poToken.isEmpty && decide (160 ≤ poToken.length)

/-- How one `start()` call ended. -/
inductive StartResult where
  | success (poToken : String)
  | failure (err : String)
  | exhausted
deriving DecidableEq

/-- Observable trace of one `start()` call: its result, the list of
backoff delays awaited between attempts (in ms), and how many attempts
were made. -/
structure StartRun where
  result : StartResult
  backoffs : List Nat
  attemptsUsed : Nat
deriving DecidableEq

/-- The retry loop of `createTask`'s `start` (src/libs/task.ts lines
33-109), with the list holding the inner-promise outcome of each remaining
attempt; a list of length `maxAttempts = 5` models a whole call.  Per the
source: a resolved token is returned if `tokenAccepted`, otherwise the
empty `else` branch falls through to the next iteration with no delay; a
rejected attempt rethrows the attempt's own error when
`attempts >= maxAttempts` (i.e. no attempts remain) and otherwise awaits
the 2000 ms backoff; a loop that consumes all attempts without returning
throws the aggregate "Failed to generate token after 5 attempts" error
(`StartResult.exhausted`). -/
def startLoop : List AttemptOutcome → StartRun
  | [] => ⟨StartResult.exhausted, [], 0⟩
  | AttemptOutcome.token p :: rest =>
    if tokenAccepted p then ⟨StartResult.success p, [], 1⟩
    else
      let r := startLoop rest
      ⟨r.result, r.backoffs, r.attemptsUsed + 1⟩
  | AttemptOutcome.thrown e :: rest =>
    if rest.isEmpty then ⟨StartResult.failure e, [], 1⟩
    else
      let r := startLoop rest
      ⟨r.result, 2000 :: r.backoffs, r.attemptsUsed + 1⟩

/-- `generateSingleThread` (src/index.ts lines 32-64): races `start()`
against the outer 2-minute timeout, and on success stores
`lastUpdateTime` and `latestTokens` before returning them.  `outerTimeout`
tells whether the 2-minute timeout won the race. -/
def generateSingleThread (s : CacheState) (visitorData : String)
    (outs : List AttemptOutcome) (outerTimeout : Bool) (now : Nat) :
    Except String TokenResult × CacheState :=
  if outerTimeout then
    (Except.error "Single-threaded token generation timeout after 2 minutes", s)
  else
    match (startLoop outs).result with
    | StartResult.success p =>
      (Except.ok ⟨visitorData, p⟩,
        { s with lastUpdateTime := now, latestTokens := some ⟨visitorData, p⟩ })
    | StartResult.failure e => (Except.error e, s)
    | StartResult.exhausted =>
      (Except.error "Failed to generate token after 5 attempts", s)

/-- A 161-character token string. -/
def tok161 : String := String.mk (List.replicate 161 'a')

/-- A 160-character token string. -/
def tok160 : String := String.mk (List.replicate 160 'a')

set_option maxRecDepth 10000 in
/-- The 161-character token passes the `length >= 160` validity check. -/
theorem tokenAccepted_tok161 : tokenAccepted tok161 = true := by decide

set_option maxRecDepth 10000 in
/-- The 161-character token's length. -/
theorem tok161_length : tok161.length = 161 := by decide

/-- C2, counterexample.  The validity check accepts any length ≥ 160, not
only exactly 160: a 161-character token — whose length is not 160 — is
returned as a successful result and stored into `latestTokens`. -/
theorem validity_counterexample :
    tok161.length = 161 ∧
    (generateSingleThread cacheInit "vd"
      [AttemptOutcome.token tok161, AttemptOutcome.thrown "x", AttemptOutcome.thrown "x",
       AttemptOutcome.thrown "x", AttemptOutcome.thrown "x"] false 5).1 =
      Except.ok ⟨"vd", tok161⟩ ∧
    (generateSingleThread cacheInit "vd"
      [AttemptOutcome.token tok161, AttemptOutcome.thrown "x", AttemptOutcome.thrown "x",
       AttemptOutcome.thrown "x", AttemptOutcome.thrown "x"] false 5).2.latestTokens =
      some ⟨"vd", tok161⟩ := by
  refine ⟨tok161_length, ?_, ?_⟩ <;>
    simp [generateSingleThread, startLoop, cacheInit, tokenAccepted_tok161]

/-- Every successful `startLoop` token passed the validity check. -/
theorem startLoop_success_accepted (outs : List AttemptOutcome) (p : String)
    (h : (startLoop outs).result = StartResult.success p) : tokenAccepted p = true := by
  induction outs with
  | nil => simp [startLoop] at h
  | cons o rest ih =>
    cases o with
    | token q =>
      by_cases hq : tokenAccepted q
      · simp [startLoop, hq] at h
        rw [← h]
        exact hq
      · simp [startLoop, hq] at h
        exact ih h
    | thrown e =>
      by_cases he : rest.isEmpty
      · simp [startLoop, he] at h
      · simp [startLoop, he] at h
        exact ih h

/-- C2, amended.  A poToken of length below 160 is never returned as a
successful result and never stored into the cache: any stored or returned
token passed the `length >= 160` check (a too-short or empty resolved
token falls through as a failed attempt). -/
theorem validity_amended (s : CacheState) (visitorData : String)
    (outs : List AttemptOutcome) (outerTimeout : Bool) (now : Nat) :
    (∀ t, (generateSingleThread s visitorData outs outerTimeout now).1 = Except.ok t →
      160 ≤ t.poToken.length) ∧
    (∀ t, (generateSingleThread s visitorData outs outerTimeout now).2.latestTokens = some t →
      s.latestTokens = some t ∨ 160 ≤ t.poToken.length) := by
  have key : ∀ p, (startLoop outs).result = StartResult.success p → 160 ≤ p.length := by
    intro p hp
    have := startLoop_success_accepted outs p hp
    simp [tokenAccepted] at this
    exact this.2
  constructor
  · intro t ht
    by_cases hto : outerTimeout
    · simp [generateSingleThread, hto] at ht
    · rcases hres : (startLoop outs).result with p | e | _ <;>
        simp [generateSingleThread, hto, hres] at ht
      rw [← ht]
      exact key p hres
  · intro t ht
    by_cases hto : outerTimeout
    · simp [generateSingleThread, hto] at ht
      exact Or.inl ht
    · rcases hres : (startLoop outs).result with p | e | _ <;>
        simp [generateSingleThread, hto, hres] at ht
      · refine Or.inr ?_
        rw [← ht]
        exact key p hres
      · exact Or.inl ht
      · exact Or.inl ht

/-- Witness for the amended C2: a 160-character token is returned and
stored, and its length is within the accepted range. -/
theorem validity_amended_witness :
    (∀ t, (generateSingleThread cacheInit "vd" [AttemptOutcome.token tok160] false 5).1 =
        Except.ok t → 160 ≤ t.poToken.length) ∧
    (∀ t, (generateSingleThread cacheInit "vd"
        [AttemptOutcome.token tok160] false 5).2.latestTokens = some t →
      cacheInit.latestTokens = some t ∨ 160 ≤ t.poToken.length) :=
  validity_amended cacheInit "vd" [AttemptOutcome.token tok160] false 5

set_option maxRecDepth 10000 in
/-- The 160-character token passes the validity check. -/
theorem tokenAccepted_tok160 : tokenAccepted tok160 = true := by decide

/-- An attempt outcome that does not produce an accepted token: a rejected
promise, or a resolved token failing the validity check. -/
def attemptFails : AttemptOutcome → Bool
  | AttemptOutcome.token p => !tokenAccepted p
  | AttemptOutcome.thrown _ => true

/-- If every attempt fails, `start()` makes exactly one attempt per list
element, and the outcome is determined by the final attempt: a thrown
final attempt rethrows its own error, a final invalid token leaves the
loop to the aggregate error. -/
theorem startLoop_all_fail (outs : List AttemptOutcome) (hne : outs ≠ [])
    (hf : ∀ o ∈ outs, attemptFails o = true) :
    (startLoop outs).attemptsUsed = outs.length ∧
    ((∃ e, outs.getLast? = some (AttemptOutcome.thrown e) ∧
        (startLoop outs).result = StartResult.failure e) ∨
     (∃ p, outs.getLast? = some (AttemptOutcome.token p) ∧
        (startLoop outs).result = StartResult.exhausted)) := by
  induction outs with
  | nil => exact absurd rfl hne
  | cons o rest ih =>
    have ho : attemptFails o = true := hf o (List.mem_cons_self o rest)
    cases rest with
    | nil =>
      cases o with
      | token p =>
        have hp : tokenAccepted p = false := by simpa [attemptFails] using ho
        simp [startLoop, hp]
      | thrown e => simp [startLoop]
    | cons b l =>
      have hrest := ih (by simp) (fun x hx => hf x (List.mem_cons_of_mem o hx))
      have hlast : (o :: b :: l).getLast? = (b :: l).getLast? := List.getLast?_cons_cons
      cases o with
      | token p =>
        have hp : tokenAccepted p = false := by simpa [attemptFails] using ho
        refine ⟨?_, ?_⟩
        · simp [startLoop, hp, hrest.1]
        · rw [hlast]
          rcases hrest.2 with ⟨e, he, hr⟩ | ⟨q, hq, hr⟩
          · exact Or.inl ⟨e, he, by simp [startLoop, hp, hr]⟩
          · exact Or.inr ⟨q, hq, by simp [startLoop, hp, hr]⟩
      | thrown e =>
        refine ⟨?_, ?_⟩
        · simp [startLoop, hrest.1]
        · rw [hlast]
          rcases hrest.2 with ⟨e2, he, hr⟩ | ⟨q, hq, hr⟩
          · exact Or.inl ⟨e2, he, by simp [startLoop, hr]⟩
          · exact Or.inr ⟨q, hq, by simp [startLoop, hr]⟩

/-- C6, counterexample.  Five attempts, each rejecting with its own error:
`start()` does reject after 5 attempts, but with the fifth attempt's
individual error (rethrown by the catch block when `attempts >=
maxAttempts`), not with the aggregate "failed after 5 attempts" error. -/
theorem exhaustion_counterexample :
    startLoop [AttemptOutcome.thrown "e1", AttemptOutcome.thrown "e2",
        AttemptOutcome.thrown "e3", AttemptOutcome.thrown "e4", AttemptOutcome.thrown "e5"] =
      ⟨StartResult.failure "e5", [2000, 2000, 2000, 2000], 5⟩ ∧
    StartResult.failure "e5" ≠ StartResult.exhausted := by
  exact ⟨by decide, by decide⟩

/-- C6, amended.  When all 5 attempts fail, `start()` rejects after
exactly 5 attempts; it rejects with the aggregate "failed after 5
attempts" error exactly when the final attempt produced an invalid-length
token, and with the final attempt's own error when the final attempt threw
or timed out. -/
theorem exhaustion_amended (outs : List AttemptOutcome) (h5 : outs.length = 5)
    (hf : ∀ o ∈ outs, attemptFails o = true) :
    (startLoop outs).attemptsUsed = 5 ∧
    ((∃ e, outs.getLast? = some (AttemptOutcome.thrown e) ∧
        (startLoop outs).result = StartResult.failure e) ∨
     (∃ p, outs.getLast? = some (AttemptOutcome.token p) ∧
        (startLoop outs).result = StartResult.exhausted)) := by
  have hne : outs ≠ [] := by
    intro hc
    rw [hc] at h5
    simp at h5
  obtain ⟨h1, h2⟩ := startLoop_all_fail outs hne hf
  exact ⟨by rw [h1, h5], h2⟩

/-- Witness for the amended C6: five invalid-token attempts end in the
aggregate exhaustion error after 5 attempts. -/
theorem exhaustion_amended_witness :
    (startLoop [AttemptOutcome.token "b", AttemptOutcome.token "b", AttemptOutcome.token "b",
        AttemptOutcome.token "b", AttemptOutcome.token "b"]).attemptsUsed = 5 ∧
    ((∃ e, [AttemptOutcome.token "b", AttemptOutcome.token "b", AttemptOutcome.token "b",
        AttemptOutcome.token "b", AttemptOutcome.token "b"].getLast? =
          some (AttemptOutcome.thrown e) ∧
        (startLoop [AttemptOutcome.token "b", AttemptOutcome.token "b", AttemptOutcome.token "b",
          AttemptOutcome.token "b", AttemptOutcome.token "b"]).result = StartResult.failure e) ∨
     (∃ p, [AttemptOutcome.token "b", AttemptOutcome.token "b", AttemptOutcome.token "b",
        AttemptOutcome.token "b", AttemptOutcome.token "b"].getLast? =
          some (AttemptOutcome.token p) ∧
        (startLoop [AttemptOutcome.token "b", AttemptOutcome.token "b", AttemptOutcome.token "b",
          AttemptOutcome.token "b", AttemptOutcome.token "b"]).result = StartResult.exhausted)) :=
  exhaustion_amended [AttemptOutcome.token "b", AttemptOutcome.token "b", AttemptOutcome.token "b",
    AttemptOutcome.token "b", AttemptOutcome.token "b"] (by decide) (by decide)

/-- C7, counterexample.  Attempt 1 resolves with a too-short token and
attempt 2 succeeds: two consecutive attempts are made (`attemptsUsed = 2`)
but the backoff list is empty — the 2000 ms delay sits only in the catch
block, so an invalid-length attempt retries immediately with no backoff. -/
theorem retry_backoff_counterexample :
    startLoop [AttemptOutcome.token "ab", AttemptOutcome.token tok160, AttemptOutcome.thrown "x",
        AttemptOutcome.thrown "x", AttemptOutcome.thrown "x"] =
      ⟨StartResult.success tok160, [], 2⟩ := by
  have h1 : tokenAccepted "ab" = false := by decide
  simp [startLoop, tokenAccepted_tok160, h1]

/-- C7, amended.  A too-short resolved token and a thrown attempt both
trigger a retry (one attempt is consumed and the loop continues with the
remaining attempts), but the fixed 2000 ms backoff is awaited only after a
thrown (rejected) non-final attempt; after an invalid-length attempt the
next attempt starts with no backoff. -/
theorem retry_backoff_amended (p e : String) (rest : List AttemptOutcome)
    (hp : tokenAccepted p = false) (hrest : rest ≠ []) :
    startLoop (AttemptOutcome.token p :: rest) =
      ⟨(startLoop rest).result, (startLoop rest).backoffs, (startLoop rest).attemptsUsed + 1⟩ ∧
    startLoop (AttemptOutcome.thrown e :: rest) =
      ⟨(startLoop rest).result, 2000 :: (startLoop rest).backoffs,
        (startLoop rest).attemptsUsed + 1⟩ := by
  cases rest with
  | nil => exact absurd rfl hrest
  | cons b l => exact ⟨by simp [startLoop, hp], by simp [startLoop]⟩

/-- Witness for the amended C7 at concrete attempts. -/
theorem retry_backoff_amended_witness :
    startLoop (AttemptOutcome.token "ab" :: [AttemptOutcome.token tok160]) =
      ⟨(startLoop [AttemptOutcome.token tok160]).result,
        (startLoop [AttemptOutcome.token tok160]).backoffs,
        (startLoop [AttemptOutcome.token tok160]).attemptsUsed + 1⟩ ∧
    startLoop (AttemptOutcome.thrown "x" :: [AttemptOutcome.token tok160]) =
      ⟨(startLoop [AttemptOutcome.token tok160]).result,
        2000 :: (startLoop [AttemptOutcome.token tok160]).backoffs,
        (startLoop [AttemptOutcome.token tok160]).attemptsUsed + 1⟩ :=
  retry_backoff_amended "ab" "x" [AttemptOutcome.token tok160] (by decide) (by decide)

/-- Outcome of the `await getLatestTokens()` inside one iteration of the
auto-update loop. -/
inductive RefreshOutcome where
  | success
  | failure
deriving DecidableEq

/-- Delay awaited by one iteration of `startAutoUpdate`'s `updateLoop`
(src/index.ts lines 362-378): the refresh interval after a successful
call, the fixed `5 * 1000` ms recovery delay after a caught error. -/
def updateLoopDelay (REFRESH_INTERVAL : Nat) : RefreshOutcome → Nat
  | RefreshOutcome.success => REFRESH_INTERVAL
  | RefreshOutcome.failure => 5 * 1000

/-- Fuel-bounded run of the `while (running)` loop of `startAutoUpdate`:
iteration `i` checks `running i`, and if still running performs one
`getLatestTokens` call with outcome `outs i` and awaits the corresponding
delay.  Returns the list of delays awaited; the loop body never exits on
its own — only `running` turning false ends it. -/
def updateLoopFrom (REFRESH_INTERVAL : Nat) (running : Nat → Bool)
    (outs : Nat → RefreshOutcome) : Nat → Nat → List Nat
  | _, 0 => []
  | i, fuel + 1 =>
    if running i then
      updateLoopDelay REFRESH_INTERVAL (outs i) ::
        updateLoopFrom REFRESH_INTERVAL running outs (i + 1) fuel
    else []

/-- While never stopped, the loop performs one iteration per fuel unit. -/
theorem updateLoopFrom_length (REFRESH_INTERVAL : Nat) (running : Nat → Bool)
    (outs : Nat → RefreshOutcome) (h : ∀ i, running i = true) :
    ∀ fuel i, (updateLoopFrom REFRESH_INTERVAL running outs i fuel).length = fuel := by
  intro fuel
  induction fuel with
  | zero => intro i; rfl
  | succ fuel ih =>
    intro i
    simp [updateLoopFrom, h i, ih (i + 1)]

/-- While never stopped, iteration `k`'s delay is determined by outcome
`k` alone. -/
theorem updateLoopFrom_get? (REFRESH_INTERVAL : Nat) (running : Nat → Bool)
    (outs : Nat → RefreshOutcome) (h : ∀ i, running i = true) :
    ∀ fuel i k, k < fuel →
      (updateLoopFrom REFRESH_INTERVAL running outs i fuel).get? k =
        some (updateLoopDelay REFRESH_INTERVAL (outs (i + k))) := by
  intro fuel
  induction fuel with
  | zero => intro i k hk; omega
  | succ fuel ih =>
    intro i k hk
    rw [updateLoopFrom, if_pos (h i)]
    cases k with
    | zero => simp
    | succ k =>
      have harith : i + 1 + k = i + (k + 1) := by omega
      rw [List.get?_cons_succ, ih (i + 1) k (by omega), harith]

/-- C9.  While not stopped, the auto-update loop never terminates due to
generation outcomes: for every fuel bound it performs that many
iterations, whatever the outcomes; each iteration after a failed
`getLatestTokens` call awaits the 5000 ms recovery delay, and each
iteration after a successful call awaits the configured refresh
interval. -/
theorem auto_refresh_resilience (REFRESH_INTERVAL : Nat) (running : Nat → Bool)
    (outs : Nat → RefreshOutcome) (n : Nat) (h : ∀ i, running i = true) :
    (updateLoopFrom REFRESH_INTERVAL running outs 0 n).length = n ∧
    (∀ k, k < n → (updateLoopFrom REFRESH_INTERVAL running outs 0 n).get? k =
      some (updateLoopDelay REFRESH_INTERVAL (outs k))) ∧
    (∀ k, outs k = RefreshOutcome.failure →
      updateLoopDelay REFRESH_INTERVAL (outs k) = 5000) ∧
    (∀ k, outs k = RefreshOutcome.success →
      updateLoopDelay REFRESH_INTERVAL (outs k) = REFRESH_INTERVAL) := by
  refine ⟨updateLoopFrom_length REFRESH_INTERVAL running outs h n 0, fun k hk => ?_,
    fun k hk => by simp [hk, updateLoopDelay], fun k hk => by simp [hk, updateLoopDelay]⟩
  have := updateLoopFrom_get? REFRESH_INTERVAL running outs h n 0 k hk
  simpa using this

/-- Witness for C9: three iterations with a failure in the middle. -/
theorem auto_refresh_resilience_witness :
    ((updateLoopFrom 30000 (fun _ => true)
        (fun i => if i = 1 then RefreshOutcome.failure else RefreshOutcome.success) 0 3).length
      = 3 ∧
    (∀ k, k < 3 → (updateLoopFrom 30000 (fun _ => true)
        (fun i => if i = 1 then RefreshOutcome.failure else RefreshOutcome.success) 0 3).get? k =
      some (updateLoopDelay 30000
        (if k = 1 then RefreshOutcome.failure else RefreshOutcome.success))) ∧
    (∀ k, (if k = 1 then RefreshOutcome.failure else RefreshOutcome.success) =
        RefreshOutcome.failure →
      updateLoopDelay 30000 (if k = 1 then RefreshOutcome.failure else RefreshOutcome.success) =
        5000) ∧
    (∀ k, (if k = 1 then RefreshOutcome.failure else RefreshOutcome.success) =
        RefreshOutcome.success →
      updateLoopDelay 30000 (if k = 1 then RefreshOutcome.failure else RefreshOutcome.success) =
        30000)) :=
  auto_refresh_resilience 30000 (fun _ => true)
    (fun i => if i = 1 then RefreshOutcome.failure else RefreshOutcome.success) 3
    (fun _ => rfl)

/-- State of the inner promise of one attempt of `createTask`'s `start`. -/
inductive PromiseState where
  | pending
  | resolved (poToken : String)
  | rejected (err : String)
deriving DecidableEq

/-- Promise semantics: only a pending promise can settle. -/
def settlePromise : PromiseState → PromiseState → PromiseState
  | PromiseState.pending, r => r
  | s, _ => s

/-- State relevant to one in-flight attempt of `createTask` (src/libs/
task.ts lines 25-105): the inner promise, whether the JSDOM window is
still open (a closed window runs no scripts, so `onPoToken` can no longer
fire), whether the 30-second timeout is still armed, and the
`isIntentionalClose` flag shared through the closure. -/
structure TaskState where
  promise : PromiseState
  windowOpen : Bool
  timeoutArmed : Bool
  isIntentionalClose : Bool
deriving DecidableEq

/-- The `destroy` closure (task.ts lines 80-88): clear the timeout, close
the window, and reject with "Window is closed" only when the close was not
intentional. -/
def destroyAction (s : TaskState) : TaskState :=
  let s1 : TaskState := { s with timeoutArmed := false, windowOpen := false }
  if s1.isIntentionalClose then s1
  else { s1 with promise := settlePromise s1.promise (PromiseState.rejected "Window is closed") }

/-- Events acting on an in-flight attempt: the page script delivering a
token via `onPoToken` (only possible while the window is open), the
30-second timeout firing (only while armed), the task's `stop()` (task.ts
lines 29-32: set `isIntentionalClose`, then run `destroy`), or a bare
`destroy` call. -/
inductive TaskEvent where
  | poTokenReady (poToken : String)
  | attemptTimeout
  | stopCall
  | destroyCall
deriving DecidableEq

/-- One event on the attempt state.  Events whose source is gone (a token
from a closed window, a cleared timeout) are no-ops. -/
def taskStep (s : TaskState) : TaskEvent → TaskState
  | TaskEvent.poTokenReady tok =>
    if s.windowOpen then
      { s with timeoutArmed := false,
               promise := settlePromise s.promise (PromiseState.resolved tok) }
    else s
  | TaskEvent.attemptTimeout =>
    if s.timeoutArmed then
      { s with timeoutArmed := false,
               promise := settlePromise s.promise
                 (PromiseState.rejected "Token generation timeout after 30 seconds") }
    else s
  | TaskEvent.stopCall => destroyAction { s with isIntentionalClose := true }
  | TaskEvent.destroyCall => destroyAction s

/-- After `stop()` the attempt is closed intentionally with its promise
still pending, and every later event keeps it that way. -/
theorem taskStep_preserves_stopped (s : TaskState) (e : TaskEvent)
    (h : s.promise = PromiseState.pending ∧ s.isIntentionalClose = true ∧
      s.windowOpen = false ∧ s.timeoutArmed = false) :
    (taskStep s e).promise = PromiseState.pending ∧
    (taskStep s e).isIntentionalClose = true ∧
    (taskStep s e).windowOpen = false ∧ (taskStep s e).timeoutArmed = false := by
  obtain ⟨h1, h2, h3, h4⟩ := h
  cases e <;> simp [taskStep, destroyAction, h1, h2, h3, h4]

/-- C10.  If `stop()` is invoked while the attempt's inner promise is
pending, the intentional-close flag suppresses the "Window is closed"
rejection, nothing resolves the promise either, and no sequence of later
events (token delivery, timeout, further stop or destroy calls) ever
settles it: the `start()` call awaiting it never resolves nor rejects. -/
theorem stop_never_settles (s : TaskState) (h : s.promise = PromiseState.pending)
    (evs : List TaskEvent) :
    (taskStep s TaskEvent.stopCall).promise = PromiseState.pending ∧
    (evs.foldl taskStep (taskStep s TaskEvent.stopCall)).promise = PromiseState.pending := by
  have hstop : (taskStep s TaskEvent.stopCall).promise = PromiseState.pending ∧
      (taskStep s TaskEvent.stopCall).isIntentionalClose = true ∧
      (taskStep s TaskEvent.stopCall).windowOpen = false ∧
      (taskStep s TaskEvent.stopCall).timeoutArmed = false := by
    simp [taskStep, destroyAction, h]
  refine ⟨hstop.1, ?_⟩
  have : ∀ (l : List TaskEvent) (t : TaskState),
      t.promise = PromiseState.pending → t.isIntentionalClose = true →
      t.windowOpen = false → t.timeoutArmed = false →
      (l.foldl taskStep t).promise = PromiseState.pending := by
    intro l
    induction l with
    | nil => intro t h1 _ _ _; exact h1
    | cons e l ih =>
      intro t h1 h2 h3 h4
      obtain ⟨g1, g2, g3, g4⟩ := taskStep_preserves_stopped t e ⟨h1, h2, h3, h4⟩
      exact ih (taskStep t e) g1 g2 g3 g4
  exact this evs _ hstop.1 hstop.2.1 hstop.2.2.1 hstop.2.2.2

/-- Witness for C10: a running attempt (window open, timeout armed) is
stopped, then a late token delivery and a bare destroy arrive. -/
theorem stop_never_settles_witness :
    (taskStep ⟨PromiseState.pending, true, true, false⟩ TaskEvent.stopCall).promise =
      PromiseState.pending ∧
    (([TaskEvent.poTokenReady "late", TaskEvent.destroyCall].foldl taskStep
      (taskStep ⟨PromiseState.pending, true, true, false⟩ TaskEvent.stopCall))).promise =
      PromiseState.pending :=
  stop_never_settles ⟨PromiseState.pending, true, true, false⟩ rfl
    [TaskEvent.poTokenReady "late", TaskEvent.destroyCall]
